import Mathlib

/-!
Shallow embedding of the Devlog frontend (a Next.js project/worklog tracker).

The embedding translates the code of `src/middleware.ts`, the data-fetching
hooks (`use-projects.ts`, `use-worklogs.ts`, `use-dashboard.ts`,
`use-project-detail.ts`, `use-auth.ts`) and the status-gated UI components
into executable Lean definitions.  JavaScript-specific behaviour is modelled
explicitly:

* string truthiness (`s || d` falls through on `""`, `null`, `undefined`)
  becomes `jsOrStr` over `Option String`;
* `Date` values (`new Date(s).getTime()`) are abstracted to their parsed
  millisecond time values, of type `Int`;
* `String.prototype.toUpperCase` is modelled on the ASCII range, and
  `String.prototype.trim` by an executable whitespace trim over the
  character list;
* `encodeURIComponent` and the `application/x-www-form-urlencoded`
  serialization of `URLSearchParams` are implemented over UTF-8 bytes.
-/

namespace Devlog

/-- JS truthiness of a possibly-absent string: `null`, `undefined` and `""`
are falsy. -/
def jsStrFalsy : Option String → Bool
  | none => true
  | some s => s = ""

/-- JS `v || d` for a possibly-absent string `v`: the default `d` is used
when `v` is absent or empty. -/
def jsOrStr (v : Option String) (d : String) : String :=
  match v with
  | none => d
  | some s => if s = "" then d else s

/-- ASCII uppercase of one character (models `toUpperCase` on the ASCII
range, which is the range role cookies use). -/
def jsUpperChar (c : Char) : Char :=
  if 97 ≤ c.toNat ∧ c.toNat ≤ 122 then Char.ofNat (c.toNat - 32) else c

/-- ASCII model of `String.prototype.toUpperCase`. -/
def jsToUpper (s : String) : String :=
  String.mk (s.data.map jsUpperChar)

/-- JS `String.prototype.trim`, modelled over the character list with
Lean's `Char.isWhitespace` as the whitespace class. -/
def jsTrim (s : String) : String :=
  String.mk
    (((s.data.dropWhile Char.isWhitespace).reverse.dropWhile
        Char.isWhitespace).reverse)

/-- UTF-8 bytes of a character, as natural numbers below 256. -/
def utf8Bytes (c : Char) : List Nat :=
  let n := c.toNat
  if n < 128 then [n]
  else if n < 2048 then [192 + n / 64, 128 + n % 64]
  else if n < 65536 then [224 + n / 4096, 128 + (n / 64) % 64, 128 + n % 64]
  else [240 + n / 262144, 128 + (n / 4096) % 64, 128 + (n / 64) % 64, 128 + n % 64]

/-- Uppercase hexadecimal digit for a value below 16. -/
def hexDigitChar (n : Nat) : Char :=
  if n < 10 then Char.ofNat (48 + n) else Char.ofNat (55 + n)

/-- Percent-encoding of one byte, e.g. `47 ↦ "%2F"`. -/
def percentByte (b : Nat) : String :=
  String.mk ['%', hexDigitChar (b / 16 % 16), hexDigitChar (b % 16)]

/-- Characters `encodeURIComponent` leaves unescaped. -/
def uriUnreserved (c : Char) : Bool :=
  c.isAlphanum || c = '-' || c = '_' || c = '.' || c = '!' || c = '~' ||
    c = '*' || c = Char.ofNat 39 || c = '(' || c = ')'

/-- Model of JS `encodeURIComponent`. -/
def encodeURIComponent (s : String) : String :=
  String.join (s.data.map (fun c =>
    if uriUnreserved c then String.singleton c
    else String.join ((utf8Bytes c).map percentByte)))

/-! ## Middleware (`src/middleware.ts`)

The middleware reads `pathname`, `search` and the `access_token` / `role`
cookies of the incoming request and either lets it pass (`next`) or
redirects.  `String.prototype.startsWith` is modelled as a prefix test on
the character list of the string. -/

/-- JS `s.startsWith(p)`. -/
def jsStartsWith (s p : String) : Bool :=
  p.data.isPrefixOf s.data

/-- The four prefixes of the `(dashboard)` route group guarded by the
middleware. -/
def dashboardGroupPrefixes : List String :=
  ["/dashboard", "/projects", "/worklogs", "/settings"]

/-- Whether `pathname` lies in the dashboard route group. -/
def isDashboardPath (pathname : String) : Bool :=
  dashboardGroupPrefixes.any (fun p => jsStartsWith pathname p)

/-- Whether `pathname` lies in the admin route group. -/
def isAdminPath (pathname : String) : Bool :=
  jsStartsWith pathname "/admin"

/-- A path guarded by the middleware (either route group). -/
def guardedPath (pathname : String) : Bool :=
  isDashboardPath pathname || isAdminPath pathname

/-- The part of an incoming request the middleware inspects: URL pieces and
the two cookies (`none` when a cookie is absent). -/
structure MwRequest where
  pathname : String
  search : String
  accessToken : Option String
  roleCookie : Option String
deriving Repr, DecidableEq

/-- Middleware outcome: pass through, or redirect to `target`, carrying the
`d` query parameter when one is set. -/
inductive MwResult where
  | next : MwResult
  | redirect (target : String) (dParam : Option String) : MwResult
deriving Repr, DecidableEq

/-- The login path: `NEXT_PUBLIC_NO_AUTH_REDIRECT` or `"/login"`. -/
def loginPathOf (noAuthRedirectEnv : Option String) : String :=
  jsOrStr noAuthRedirectEnv "/login"

/-- The `access_token` cookie value, defaulted to `""` as in
`req.cookies.get(...)?.value || ""`. -/
def tokenOf (req : MwRequest) : String :=
  jsOrStr req.accessToken ""

/-- The uppercased `role` cookie value. -/
def roleOf (req : MwRequest) : String :=
  jsToUpper (jsOrStr req.roleCookie "")

/-- The function `middleware` from `src/middleware.ts`, translated clause
by clause.
`noAuthRedirectEnv` is the `NEXT_PUBLIC_NO_AUTH_REDIRECT` environment
variable. -/
def middleware (noAuthRedirectEnv : Option String) (req : MwRequest) : MwResult :=
  let isDashboard := isDashboardPath req.pathname
  let isAdmin := isAdminPath req.pathname
  if !isDashboard && !isAdmin then
    MwResult.next
  else
    let token := tokenOf req
    let role := roleOf req
    let loginPath := loginPathOf noAuthRedirectEnv
    if token = "" then
      MwResult.redirect loginPath
        (some (encodeURIComponent (req.pathname ++ req.search)))
    else if isDashboard && role ≠ "USER" then
      MwResult.redirect (if role = "ADMIN" then "/admin" else loginPath) none
    else if isAdmin && role ≠ "ADMIN" then
      MwResult.redirect (if role = "USER" then "/dashboard" else loginPath) none
    else
      MwResult.next

/-- No pathname lies in both route groups: `"/admin"` and each dashboard
prefix disagree on their second character. -/
theorem guarded_groups_disjoint (p : String) :
    isDashboardPath p = true → isAdminPath p = true → False := by
  intro hd ha
  unfold isDashboardPath dashboardGroupPrefixes at hd
  unfold isAdminPath at ha
  simp only [List.any_eq_true, List.mem_cons, List.not_mem_nil, or_false] at hd
  obtain ⟨q, hq, hpre⟩ := hd
  unfold jsStartsWith at hpre ha
  rw [ List.isPrefixOf_iff_prefix] at hpre ha
  rcases List.prefix_or_prefix_of_prefix hpre ha with h | h <;>
    rcases hq with rfl | rfl | rfl | rfl <;> revert h <;> decide

/-- On a guarded path the admin group is ruled out by the dashboard group. -/
theorem isAdminPath_eq_false_of_dashboard (p : String)
    (hD : isDashboardPath p = true) : isAdminPath p = false := by
  cases hA : isAdminPath p
  · rfl
  · exact absurd (guarded_groups_disjoint p hD hA) not_false

/-- On a guarded path the dashboard group is ruled out by the admin group. -/
theorem isDashboardPath_eq_false_of_admin (p : String)
    (hA : isAdminPath p = true) : isDashboardPath p = false := by
  cases hD : isDashboardPath p
  · rfl
  · exact absurd (guarded_groups_disjoint p hD hA) not_false

/-- Requests outside both route groups pass through. -/
theorem middleware_unguarded (env : Option String) (req : MwRequest)
    (h : guardedPath req.pathname = false) :
    middleware env req = MwResult.next := by
  unfold guardedPath at h
  rw [Bool.or_eq_false_iff] at h
  simp [middleware, h.1, h.2]

/-- On a guarded path, a missing or empty token redirects to the login path
with the destination in the `d` parameter. -/
theorem middleware_no_token (env : Option String) (req : MwRequest)
    (hg : guardedPath req.pathname = true) (ht : tokenOf req = "") :
    middleware env req =
      MwResult.redirect (loginPathOf env)
        (some (encodeURIComponent (req.pathname ++ req.search))) := by
  unfold guardedPath at hg
  rcases Bool.or_eq_true_iff.mp hg with h | h <;> simp [middleware, h, ht]

/-- Role dispatch on the dashboard route group when a token is present. -/
theorem middleware_dashboard (env : Option String) (req : MwRequest)
    (hD : isDashboardPath req.pathname = true) (ht : tokenOf req ≠ "") :
    (middleware env req = MwResult.next ↔ roleOf req = "USER") ∧
    (roleOf req = "ADMIN" → middleware env req = MwResult.redirect "/admin" none) ∧
    (roleOf req ≠ "USER" → roleOf req ≠ "ADMIN" →
      middleware env req = MwResult.redirect (loginPathOf env) none) := by
  have hA := isAdminPath_eq_false_of_dashboard req.pathname hD
  by_cases hu : roleOf req = "USER"
  · have ha : roleOf req ≠ "ADMIN" := by rw [hu]; decide
    simp [middleware, hD, hA, ht, hu, ha]
  · by_cases ha : roleOf req = "ADMIN"
    · simp [middleware, hD, hA, ht, hu, ha]
    · simp [middleware, hD, hA, ht, hu, ha]

/-- Role dispatch on the admin route group when a token is present. -/
theorem middleware_admin (env : Option String) (req : MwRequest)
    (hA : isAdminPath req.pathname = true) (ht : tokenOf req ≠ "") :
    (middleware env req = MwResult.next ↔ roleOf req = "ADMIN") ∧
    (roleOf req = "USER" → middleware env req = MwResult.redirect "/dashboard" none) ∧
    (roleOf req ≠ "USER" → roleOf req ≠ "ADMIN" →
      middleware env req = MwResult.redirect (loginPathOf env) none) := by
  have hD := isDashboardPath_eq_false_of_admin req.pathname hA
  by_cases ha : roleOf req = "ADMIN"
  · have hu : roleOf req ≠ "USER" := by rw [ha]; decide
    simp [middleware, hD, hA, ht, hu, ha]
  · by_cases hu : roleOf req = "USER"
    · simp [middleware, hD, hA, ht, hu, ha]
    · simp [middleware, hD, hA, ht, hu, ha]

/-- C1: on a guarded path (`/dashboard`, `/projects`, `/worklogs`,
`/settings`, `/admin`), an absent or empty access token redirects to the
login path with the `d` parameter set to the URL-encoded pathname plus
search; with a token, a dashboard-group request passes exactly when the
uppercased role is `"USER"`, goes to `/admin` when it is `"ADMIN"` and to
the login path otherwise; an `/admin` request passes exactly when the role
is `"ADMIN"`, goes to `/dashboard` when it is `"USER"` and to the login
path otherwise; unguarded paths always pass through. -/
theorem C1_middleware_route_guard (env : Option String) (req : MwRequest) :
    (guardedPath req.pathname = false → middleware env req = MwResult.next) ∧
    (guardedPath req.pathname = true → tokenOf req = "" →
      middleware env req =
        MwResult.redirect (loginPathOf env)
          (some (encodeURIComponent (req.pathname ++ req.search)))) ∧
    (isDashboardPath req.pathname = true → tokenOf req ≠ "" →
      (middleware env req = MwResult.next ↔ roleOf req = "USER") ∧
      (roleOf req = "ADMIN" → middleware env req = MwResult.redirect "/admin" none) ∧
      (roleOf req ≠ "USER" → roleOf req ≠ "ADMIN" →
        middleware env req = MwResult.redirect (loginPathOf env) none)) ∧
    (isAdminPath req.pathname = true → tokenOf req ≠ "" →
      (middleware env req = MwResult.next ↔ roleOf req = "ADMIN") ∧
      (roleOf req = "USER" → middleware env req = MwResult.redirect "/dashboard" none) ∧
      (roleOf req ≠ "USER" → roleOf req ≠ "ADMIN" →
        middleware env req = MwResult.redirect (loginPathOf env) none)) :=
  ⟨middleware_unguarded env req,
   middleware_no_token env req,
   middleware_dashboard env req,
   middleware_admin env req⟩

/-- Concrete instance of C1: without a token, `/projects/1?a=b` redirects
to `/login` carrying the URL-encoded destination. -/
theorem C1_middleware_route_guard_witness :
    middleware none ⟨"/projects/1", "?a=b", none, none⟩ =
      MwResult.redirect "/login" (some "%2Fprojects%2F1%3Fa%3Db") :=
  ((C1_middleware_route_guard none ⟨"/projects/1", "?a=b", none, none⟩).2.1
      (by decide) (by decide)).trans (by decide)

/-! ## Hook request lifecycle

Each data hook keeps `data`, `error`, `loading` state and an
`abortRef : AbortController | null`.  We model a hook as a state machine:
controllers are numbered, `current` is the id `abortRef` holds, and
`aborted` records the ids whose controller was aborted.  `hookStart`
is the synchronous head of `load()` on the path that reaches the fetch
(`setLoading(true); setError(""); abortRef.current?.abort();
abortRef.current = controller`).  A fetch finishes with a `FetchDone`
event: success with a response, rejection with a non-abort error carrying
a message, or rejection with an abort error. -/

/-- Observable hook state plus the abort bookkeeping. -/
structure HookState (α : Type) where
  current : Option Nat
  aborted : List Nat
  data : Option α
  error : String
  loading : Bool
deriving Repr, DecidableEq

/-- How an in-flight fetch finishes. -/
inductive FetchDone (α : Type) where
  | success (resp : α) : FetchDone α
  | failure (msg : String) : FetchDone α
  | abortErr : FetchDone α
deriving Repr, DecidableEq

/-- Start of a new request with controller id `i` (the path of `load()`
that reaches the fetch): clear the error, raise `loading`, abort the
previous controller and install `i` in `abortRef`. -/
def hookStart {α : Type} (i : Nat) (s : HookState α) : HookState α :=
  { s with
    loading := true
    error := ""
    aborted := match s.current with
      | some c => c :: s.aborted
      | none => s.aborted
    current := some i }

/-- Completion handler of `load()` in `use-projects.ts` / `use-worklogs.ts`
(and `use-project-detail.ts`): `setData` only when
`abortRef.current === controller`; the catch returns early when
`controller.signal.aborted || abortRef.current !== controller` and
otherwise sets the hook's fixed failure message (`failMsg`) and clears
`data`; the finally lowers `loading` only when
`abortRef.current === controller`. -/
def guardedComplete {α : Type} (failMsg : String) (i : Nat) (d : FetchDone α)
    (s : HookState α) : HookState α :=
  match d with
  | FetchDone.success resp =>
      let s1 := if s.current = some i then { s with data := some resp } else s
      if s1.current = some i then { s1 with loading := false } else s1
  | FetchDone.failure _ =>
      if s.aborted.contains i || s.current ≠ some i then
        if s.current = some i then { s with loading := false } else s
      else
        let s1 := { s with error := failMsg, data := none }
        if s1.current = some i then { s1 with loading := false } else s1
  | FetchDone.abortErr =>
      if s.aborted.contains i || s.current ≠ some i then
        if s.current = some i then { s with loading := false } else s
      else
        let s1 := { s with error := failMsg, data := none }
        if s1.current = some i then { s1 with loading := false } else s1

/-- The fixed failure message of `useProjects.load`. -/
def projectsLoadFailMsg : String := "Gagal memuat projects. Coba lagi."

/-- The fixed failure message of `useWorklogs.load`. -/
def worklogsLoadFailMsg : String := "Gagal memuat worklogs. Coba lagi."

/-- The fixed failure message of `useDashboardData.load`. -/
def dashboardLoadFailMsg : String := "Gagal memuat dashboard. Coba lagi."

/-- Completion handler of `useDashboardData.load`: unlike the other hooks
it checks neither `controller.signal.aborted` nor
`abortRef.current === controller` — `setData` on success, `setError` /
`setData(null)` in the catch, and `setLoading(false)` in the finally all
run unconditionally. -/
def dashComplete {α : Type} (_i : Nat) (d : FetchDone α)
    (s : HookState α) : HookState α :=
  match d with
  | FetchDone.success resp => { s with data := some resp, loading := false }
  | FetchDone.failure _ =>
      { s with error := dashboardLoadFailMsg, data := none, loading := false }
  | FetchDone.abortErr =>
      { s with error := dashboardLoadFailMsg, data := none, loading := false }

/-- C2 fails on `useDashboardData`: after request 0 is superseded and
aborted by request 1 and request 1 has committed its response, the
completion of the stale request 0 still rewrites `data`, `error` and
`loading`, so the state is not what the newer request determined. -/
theorem C2_superseded_counterexample :
    (dashComplete 1 (FetchDone.success 37)
        (hookStart 1 (hookStart 0
          (⟨none, [], none, "", false⟩ : HookState Nat)))).current = some 1 ∧
    (dashComplete 1 (FetchDone.success 37)
        (hookStart 1 (hookStart 0
          (⟨none, [], none, "", false⟩ : HookState Nat)))).aborted.contains 0 = true ∧
    dashComplete 0 FetchDone.abortErr
        (dashComplete 1 (FetchDone.success 37)
          (hookStart 1 (hookStart 0
            (⟨none, [], none, "", false⟩ : HookState Nat)))) ≠
      dashComplete 1 (FetchDone.success 37)
        (hookStart 1 (hookStart 0
          (⟨none, [], none, "", false⟩ : HookState Nat))) := by
  decide

/-- C2 amended: starting a new request always aborts the previous one and
installs itself as current.  In `useProjects` / `useWorklogs` (and
`useProjectDetail`) a superseded request's completion — success, error or
abort — leaves the state untouched.  In `useDashboardData` the handlers are
unguarded: a superseded request's abort completion overwrites the state
with the dashboard failure message, `data := null`, `loading := false`. -/
theorem C2_request_supersession {α : Type} (m : String) (s : HookState α)
    (i : Nat) (d : FetchDone α) :
    (∀ c, s.current = some c →
      (hookStart i s).aborted.contains c = true ∧
        (hookStart i s).current = some i) ∧
    (s.current ≠ some i → guardedComplete m i d s = s) ∧
    (s.current ≠ some i →
      dashComplete i FetchDone.abortErr s =
        { s with error := dashboardLoadFailMsg, data := none, loading := false }) := by
  refine ⟨?_, ?_, ?_⟩
  · intro c hc
    simp [hookStart, hc]
  · intro h
    cases d <;> simp [guardedComplete, h]
  · intro _
    simp [dashComplete]

/-- Concrete instance of the amended C2: a stale success in `useProjects`
does not overwrite the state owned by the newer request. -/
theorem C2_request_supersession_witness :
    guardedComplete projectsLoadFailMsg 0 (FetchDone.success 5)
        (⟨some 1, [0], none, "", true⟩ : HookState Nat) =
      ⟨some 1, [0], none, "", true⟩ :=
  (C2_request_supersession projectsLoadFailMsg
      (⟨some 1, [0], none, "", true⟩ : HookState Nat) 0
      (FetchDone.success 5)).2.1 (by decide)

/-! ## Error message surfacing (`fetchWithAuth`, `parseApiError`)

`fetchWithAuth` (identical in `use-projects.ts`, `use-worklogs.ts` and
`use-dashboard.ts`) throws, on a non-2xx response, an `Error` whose message
is `body?.message || "Request failed: " + res.status`.  `parseApiError`
(`use-auth.ts`) maps a login failure to the server message or a
status-dependent fallback.  The list hooks' `load`, however, catches the
thrown error and stores a fixed localized string in the `error` state. -/

/-- The slice of a JSON error body `fetchWithAuth` reads. -/
structure ErrBody where
  message : Option String
deriving Repr, DecidableEq

/-- The fallback `"Request failed: " + res.status`. -/
def requestFailedMsg (status : Nat) : String :=
  "Request failed: " ++ toString status

/-- Message of the error thrown by `fetchWithAuth` on `!res.ok`:
`body?.message || "Request failed: " + res.status`; `body` is `null` when
the response was not JSON. -/
def fetchWithAuthThrownMsg (status : Nat) (body : Option ErrBody) : String :=
  jsOrStr (body.bind (fun b => b.message)) (requestFailedMsg status)

/-- The error body shape `parseApiError` reads (`use-auth.ts`). -/
structure ApiErrorBody where
  message : Option String
  error : Option String
  statusCode : Option Nat
deriving Repr, DecidableEq

/-- The status-dependent fallbacks of `parseApiError`. -/
def parseApiErrorFallback (status : Nat) : String :=
  if status = 0 then "Tidak dapat terhubung ke server. Coba lagi."
  else if 500 ≤ status then "Terjadi kesalahan pada server. Coba beberapa saat lagi."
  else "Email atau kata sandi salah."

/-- The function `parseApiError` from `use-auth.ts`: the server message when truthy,
otherwise a fallback chosen by status. -/
def parseApiError (status : Nat) (body : Option ApiErrorBody) : String :=
  match body.bind (fun b => b.message) with
  | some m => if m = "" then parseApiErrorFallback status else m
  | none => parseApiErrorFallback status

/-- C3 fails on the list hooks: the server responds 500 with message
`"Quota exceeded"`; `fetchWithAuth` throws that message, but
`useProjects.load` stores its fixed localized string, so the error the
caller observes is not the server's message. -/
theorem C3_server_message_counterexample :
    fetchWithAuthThrownMsg 500 (some ⟨some "Quota exceeded"⟩) = "Quota exceeded" ∧
    (guardedComplete projectsLoadFailMsg 0
        (FetchDone.failure
          (fetchWithAuthThrownMsg 500 (some ⟨some "Quota exceeded"⟩)))
        (⟨some 0, [], none, "", true⟩ : HookState Nat)).error =
      "Gagal memuat projects. Coba lagi." ∧
    (guardedComplete projectsLoadFailMsg 0
        (FetchDone.failure
          (fetchWithAuthThrownMsg 500 (some ⟨some "Quota exceeded"⟩)))
        (⟨some 0, [], none, "", true⟩ : HookState Nat)).error ≠
      "Quota exceeded" := by
  decide

/-- C3 amended: on a non-2xx response, the error thrown by `fetchWithAuth`
carries the server message when the body has a non-empty `message` field
and the generic `"Request failed: <status>"` otherwise, and `parseApiError`
surfaces a non-empty server message likewise; but the list hooks' `load`
replaces any failure with the hook's fixed localized string, so the error
state the caller observes is that fixed string, not the server message. -/
theorem C3_error_surfacing (status : Nat) (body : Option ErrBody)
    (b2 : Option ApiErrorBody) {α : Type} (s : HookState α) (i : Nat)
    (fm m : String) :
    (∀ msg, body.bind (fun b => b.message) = some msg → msg ≠ "" →
      fetchWithAuthThrownMsg status body = msg) ∧
    ((body.bind (fun b => b.message) = none ∨
        body.bind (fun b => b.message) = some "") →
      fetchWithAuthThrownMsg status body = requestFailedMsg status) ∧
    (∀ msg, b2.bind (fun b => b.message) = some msg → msg ≠ "" →
      parseApiError status b2 = msg) ∧
    (s.current = some i → s.aborted.contains i = false →
      (guardedComplete fm i (FetchDone.failure m) s).error = fm) := by
  refine ⟨?_, ?_, ?_, ?_⟩
  · intro msg h hne
    simp [fetchWithAuthThrownMsg, jsOrStr, h, hne]
  · rintro (h | h) <;> simp [fetchWithAuthThrownMsg, jsOrStr, h]
  · intro msg h hne
    simp [parseApiError, h, hne]
  · intro h1 h2
    have h3 : i ∉ s.aborted := by simpa using h2
    simp [guardedComplete, h1, h2, h3]

/-- Concrete instance of the amended C3. -/
theorem C3_error_surfacing_witness :
    fetchWithAuthThrownMsg 404 (some ⟨some "Not found"⟩) = "Not found" ∧
    parseApiError 401 (some ⟨some "Unauthorized", none, none⟩) = "Unauthorized" ∧
    (guardedComplete projectsLoadFailMsg 0 (FetchDone.failure "Not found")
        (⟨some 0, [], none, "", true⟩ : HookState Nat)).error =
      projectsLoadFailMsg := by
  refine ⟨?_, ?_, ?_⟩
  · exact (C3_error_surfacing 404 (some ⟨some "Not found"⟩) none
      (⟨some 0, [], none, "", true⟩ : HookState Nat) 0 projectsLoadFailMsg "x").1
      "Not found" (by decide) (by decide)
  · exact (C3_error_surfacing 401 none (some ⟨some "Unauthorized", none, none⟩)
      (⟨some 0, [], none, "", true⟩ : HookState Nat) 0 projectsLoadFailMsg "x").2.2.1
      "Unauthorized" (by decide) (by decide)
  · exact (C3_error_surfacing 404 none none
      (⟨some 0, [], none, "", true⟩ : HookState Nat) 0 projectsLoadFailMsg
      "Not found").2.2.2 (by decide) (by decide)

/-! ## Dashboard aggregation (`use-dashboard.ts`)

`useDashboardData.load` fetches `/auth/me` and `/projects?limit=5`, then
for each returned project `/projects/:id/worklogs?limit=5`; each of those
per-project fetches maps its worklogs with `projectId := p.id` and is
protected by `.catch(() => [])`.  The aggregate is sorted by `createdAt`
descending (JS stable sort, modelled by `List.mergeSort`), its first five
become `recentWorklogs`, and `worklogsThisWeek` counts aggregated worklogs
whose `logDate` is within the last seven days.  Dates are abstracted to
their parsed millisecond time values. -/

/-- A worklog DTO (`WorklogItem` in `use-dashboard.ts`); `logDate` and
`createdAt` stand for the time values of the date strings. -/
structure WorklogItem where
  id : String
  logDate : Int
  activityType : String
  summary : String
  timeSpent : Int
  blockers : String
  createdAt : Int
  projectId : Option String
deriving Repr, DecidableEq

/-- A project DTO (`ProjectItem` in `use-dashboard.ts`). -/
structure ProjectItem where
  id : String
  title : String
  description : String
  techStack : String
  status : String
  createdAt : String
deriving Repr, DecidableEq

/-- Outcome of one per-project worklogs fetch: `Except.error` when the
promise rejected; the payload is the response's `data` field, absent when
the body was not JSON. -/
abbrev WorklogsFetch := Except Unit (Option (List WorklogItem))

/-- One element of the `worklogLists` array:
`fetch.then(w => (w?.data || []).map(it => ({...it, projectId: p.id})))
      .catch(() => [])`. -/
def tagWorklogs (p : ProjectItem) (r : WorklogsFetch) : List WorklogItem :=
  match r with
  | Except.ok w => (w.getD []).map (fun it => { it with projectId := some p.id })
  | Except.error _ => []

/-- The `allWorklogs` aggregate: the flattened per-project lists, in
project order. -/
def allWorklogsOf (fetches : List (ProjectItem × WorklogsFetch)) :
    List WorklogItem :=
  (fetches.map (fun pr => tagWorklogs pr.1 pr.2)).flatten

/-- The sort comparator `(a, b) => b.createdAt - a.createdAt` as a
  descending-order `le`. -/
def createdDesc (a b : WorklogItem) : Bool :=
  b.createdAt ≤ a.createdAt

/-- Stable insertion of `w` into a list sorted non-increasingly by
`createdAt`: `w` lands before the first element it is `createdDesc`-above,
so an earlier element keeps its place among equals, matching the stable JS
array sort. -/
def insertByCreated (w : WorklogItem) : List WorklogItem → List WorklogItem
  | [] => [w]
  | x :: xs => if createdDesc w x then w :: x :: xs else x :: insertByCreated w xs

/-- Stable sort by non-increasing `createdAt` (the semantics of
`allWorklogs.sort((a, b) => b.createdAt - a.createdAt)`). -/
def sortByCreatedDesc : List WorklogItem → List WorklogItem
  | [] => []
  | x :: xs => insertByCreated x (sortByCreatedDesc xs)

/-- The `recentWorklogs` list: the aggregate sorted descending by `createdAt`,
truncated to five. -/
def recentWorklogsOf (fetches : List (ProjectItem × WorklogsFetch)) :
    List WorklogItem :=
  (sortByCreatedDesc (allWorklogsOf fetches)).take 5

/-- The `weekAgo` bound: seven days before `now` (the calendar arithmetic of
`setDate(getDate() - 7)` abstracted to milliseconds). -/
def weekAgoOf (now : Int) : Int :=
  now - 7 * 86400000

/-- The `worklogsThisWeek` count: aggregated worklogs with
`new Date(w.logDate) >= weekAgo`. -/
def worklogsThisWeekOf (now : Int)
    (fetches : List (ProjectItem × WorklogsFetch)) : Nat :=
  ((allWorklogsOf fetches).filter (fun w => weekAgoOf now ≤ w.logDate)).length

/-- Replace every rejected per-project fetch by a successful empty page. -/
def failuresAsEmpty (fetches : List (ProjectItem × WorklogsFetch)) :
    List (ProjectItem × WorklogsFetch) :=
  fetches.map (fun pr =>
    match pr.2 with
    | Except.error _ => (pr.1, Except.ok (some []))
    | Except.ok w => (pr.1, Except.ok w))

/-- The `totals` record of `DashboardData`. -/
structure DashTotals where
  totalProjects : Int
  worklogsThisWeek : Nat
deriving Repr, DecidableEq

/-- The dashboard page data (`DashboardData` in `use-dashboard.ts`),
restricted to the fields the aggregation computes. -/
structure DashData where
  recentWorklogs : List WorklogItem
  totals : DashTotals
deriving Repr, DecidableEq

/-- The tail of `useDashboardData.load` once the `me` and `projects`
fetches succeeded: per-project failures are absorbed inside the
`Promise.all`, so the outer try never throws and the data is produced.
`totalProjects` is `projResp?.meta?.totalItems ?? projects.length`. -/
def dashLoadData (now : Int) (metaTotalItems : Option Int)
    (fetches : List (ProjectItem × WorklogsFetch)) : Except String DashData :=
  Except.ok
    { recentWorklogs := recentWorklogsOf fetches
      totals :=
        { totalProjects := metaTotalItems.getD (fetches.length : Int)
          worklogsThisWeek := worklogsThisWeekOf now fetches } }

theorem allWorklogs_failuresAsEmpty (fetches : List (ProjectItem × WorklogsFetch)) :
    allWorklogsOf (failuresAsEmpty fetches) = allWorklogsOf fetches := by
  unfold allWorklogsOf failuresAsEmpty
  induction fetches with
  | nil => rfl
  | cons pr rest ih =>
      simp only [List.map_cons, List.flatten_cons] at ih ⊢
      rw [ih]
      rcases pr with ⟨p, r⟩
      cases r <;> simp [tagWorklogs]

/-- C4: rejected per-project worklog fetches contribute empty lists: the
dashboard data is still produced (no error), and `recentWorklogs` and
`worklogsThisWeek` are exactly what they would be had those projects
returned no worklogs. -/
theorem C4_best_effort_aggregation (now : Int) (metaTotalItems : Option Int)
    (fetches : List (ProjectItem × WorklogsFetch)) :
    recentWorklogsOf fetches = recentWorklogsOf (failuresAsEmpty fetches) ∧
    worklogsThisWeekOf now fetches =
      worklogsThisWeekOf now (failuresAsEmpty fetches) ∧
    ∃ d, dashLoadData now metaTotalItems fetches = Except.ok d ∧
      d.recentWorklogs = recentWorklogsOf (failuresAsEmpty fetches) ∧
      d.totals.worklogsThisWeek =
        worklogsThisWeekOf now (failuresAsEmpty fetches) := by
  have hall := allWorklogs_failuresAsEmpty fetches
  refine ⟨?_, ?_, ?_⟩
  · unfold recentWorklogsOf
    rw [hall]
  · unfold worklogsThisWeekOf
    rw [hall]
  · refine ⟨_, rfl, ?_, ?_⟩
    · unfold recentWorklogsOf
      rw [hall]
    · unfold worklogsThisWeekOf
      rw [hall]

theorem mem_insertByCreated (w y : WorklogItem) (l : List WorklogItem) :
    y ∈ insertByCreated w l → y = w ∨ y ∈ l := by
  induction l with
  | nil =>
      intro hy
      simp only [insertByCreated, List.mem_singleton] at hy
      exact Or.inl hy
  | cons x xs ih =>
      intro hy
      unfold insertByCreated at hy
      by_cases hc : createdDesc w x = true
      · rw [if_pos hc] at hy
        rcases List.mem_cons.mp hy with h | h
        · exact Or.inl h
        · exact Or.inr h
      · rw [if_neg hc] at hy
        rcases List.mem_cons.mp hy with h | h
        · exact Or.inr (h ▸ List.mem_cons_self x xs)
        · rcases ih h with h2 | h2
          · exact Or.inl h2
          · exact Or.inr (List.mem_cons_of_mem _ h2)

theorem insertByCreated_sorted (w : WorklogItem) (l : List WorklogItem)
    (h : List.Pairwise (fun a b => b.createdAt ≤ a.createdAt) l) :
    List.Pairwise (fun a b => b.createdAt ≤ a.createdAt) (insertByCreated w l) := by
  induction l with
  | nil => simp [insertByCreated]
  | cons x xs ih =>
      have hhead : ∀ y ∈ xs, y.createdAt ≤ x.createdAt :=
        fun y hy => List.rel_of_pairwise_cons h hy
      have htail : List.Pairwise (fun a b => b.createdAt ≤ a.createdAt) xs :=
        List.Pairwise.of_cons h
      unfold insertByCreated
      by_cases hc : createdDesc w x = true
      · have hwx : x.createdAt ≤ w.createdAt := by
          simpa only [createdDesc, decide_eq_true_eq] using hc
        rw [if_pos hc]
        refine List.pairwise_cons.mpr ⟨?_, h⟩
        intro y hy
        rcases List.mem_cons.mp hy with rfl | hy
        · exact hwx
        · exact le_trans (hhead y hy) hwx
      · have hxw : w.createdAt ≤ x.createdAt := by
          simp only [createdDesc, decide_eq_true_eq] at hc
          omega
        rw [if_neg hc]
        refine List.pairwise_cons.mpr ⟨?_, ih htail⟩
        intro y hy
        rcases mem_insertByCreated w y xs hy with rfl | hy
        · exact hxw
        · exact hhead y hy

theorem sortByCreatedDesc_sorted (l : List WorklogItem) :
    List.Pairwise (fun a b => b.createdAt ≤ a.createdAt) (sortByCreatedDesc l) := by
  induction l with
  | nil => simp [sortByCreatedDesc]
  | cons x xs ih => exact insertByCreated_sorted x (sortByCreatedDesc xs) ih

theorem sortByCreatedDesc_mem (l : List WorklogItem) :
    ∀ y ∈ sortByCreatedDesc l, y ∈ l := by
  induction l with
  | nil => simp [sortByCreatedDesc]
  | cons x xs ih =>
      intro y hy
      unfold sortByCreatedDesc at hy
      rcases mem_insertByCreated x y (sortByCreatedDesc xs) hy with rfl | hy
      · exact List.mem_cons_self _ _
      · exact List.mem_cons_of_mem _ (ih y hy)

theorem recentWorklogs_sorted (f : List (ProjectItem × WorklogsFetch)) :
    List.Pairwise (fun a b => b.createdAt ≤ a.createdAt) (recentWorklogsOf f) := by
  unfold recentWorklogsOf
  exact List.Pairwise.sublist (List.take_sublist 5 _)
    (sortByCreatedDesc_sorted (allWorklogsOf f))

theorem recentWorklogs_src (f : List (ProjectItem × WorklogsFetch)) :
    ∀ w ∈ recentWorklogsOf f, ∃ pr ∈ f, ∃ ws, pr.2 = Except.ok ws ∧
      ∃ it ∈ ws.getD [], w = { it with projectId := some pr.1.id } := by
  intro w hw
  unfold recentWorklogsOf at hw
  have hw1 : w ∈ sortByCreatedDesc (allWorklogsOf f) :=
    (List.take_sublist 5 _).subset hw
  have hw2 : w ∈ allWorklogsOf f :=
    sortByCreatedDesc_mem (allWorklogsOf f) w hw1
  unfold allWorklogsOf at hw2
  rw [List.mem_flatten] at hw2
  obtain ⟨l, hl, hwl⟩ := hw2
  rw [List.mem_map] at hl
  obtain ⟨pr, hpr, rfl⟩ := hl
  refine ⟨pr, hpr, ?_⟩
  rcases hr : pr.2 with e | ws
  · rw [hr] at hwl
    simp [tagWorklogs] at hwl
  · rw [hr] at hwl
    unfold tagWorklogs at hwl
    rw [List.mem_map] at hwl
    obtain ⟨it, hit, rfl⟩ := hwl
    exact ⟨ws, rfl, it, hit, rfl⟩

theorem allWorklogs_length_le (f : List (ProjectItem × WorklogsFetch))
    (hw : ∀ pr ∈ f, (tagWorklogs pr.1 pr.2).length ≤ 5) :
    (allWorklogsOf f).length ≤ 5 * f.length := by
  induction f with
  | nil => simp [allWorklogsOf]
  | cons pr rest ih =>
      have h1 := hw pr (List.mem_cons_self pr rest)
      have h2 := ih (fun q hq => hw q (List.mem_cons_of_mem pr hq))
      simp only [allWorklogsOf, List.map_cons, List.flatten_cons,
        List.length_append, List.length_cons] at h2 ⊢
      omega

/-- C9: `recentWorklogs` holds at most five items, sorted non-increasingly
by `createdAt`, each drawn from a per-project fetch of the first projects
page and stamped with that project's id; `worklogsThisWeek` counts exactly
the aggregated worklogs whose `logDate` is on or after seven days before
now; and under the request limits (at most five projects, at most five
worklogs per project) the aggregate has at most twenty-five candidates. -/
theorem C9_recent_worklogs (now : Int) (f : List (ProjectItem × WorklogsFetch)) :
    (recentWorklogsOf f).length ≤ 5 ∧
    List.Pairwise (fun a b => b.createdAt ≤ a.createdAt) (recentWorklogsOf f) ∧
    (∀ w ∈ recentWorklogsOf f, ∃ pr ∈ f, ∃ ws, pr.2 = Except.ok ws ∧
      ∃ it ∈ ws.getD [], w = { it with projectId := some pr.1.id } ∧
        w.projectId = some pr.1.id) ∧
    worklogsThisWeekOf now f =
      (allWorklogsOf f).countP (fun w => weekAgoOf now ≤ w.logDate) ∧
    ((∀ pr ∈ f, (tagWorklogs pr.1 pr.2).length ≤ 5) → f.length ≤ 5 →
      (allWorklogsOf f).length ≤ 25) := by
  refine ⟨List.length_take_le 5 _, recentWorklogs_sorted f, ?_, ?_, ?_⟩
  · intro w hw
    obtain ⟨pr, hpr, ws, hws, it, hit, rfl⟩ := recentWorklogs_src f w hw
    exact ⟨pr, hpr, ws, hws, it, hit, rfl, rfl⟩
  · unfold worklogsThisWeekOf
    rw [List.countP_eq_length_filter]
  · intro hw hf
    have := allWorklogs_length_le f hw
    omega

/-- Concrete instance of C9 with one project and one worklog. -/
theorem C9_recent_worklogs_witness :
    recentWorklogsOf
        [(⟨"p1", "t", "d", "ts", "ACTIVE", "c"⟩,
          Except.ok (some [⟨"w1", 0, "CODING", "s", 30, "", 100, none⟩]))] =
      [⟨"w1", 0, "CODING", "s", 30, "", 100, some "p1"⟩] ∧
    (allWorklogsOf
        [(⟨"p1", "t", "d", "ts", "ACTIVE", "c"⟩,
          Except.ok (some [⟨"w1", 0, "CODING", "s", 30, "", 100, none⟩]))]).length ≤ 25 :=
  ⟨by decide,
   (C9_recent_worklogs 0
      [(⟨"p1", "t", "d", "ts", "ACTIVE", "c"⟩,
        Except.ok (some [⟨"w1", 0, "CODING", "s", 30, "", 100, none⟩]))]).2.2.2.2
     (by decide) (by decide)⟩

/-! ## Optimistic delete (`useProjects.remove`, `useWorklogs.remove`)

Both hooks hold a paginated list response and, after a successful DELETE,
update it locally: the deleted id is filtered out of the current page and
the pagination meta is adjusted.  The two functions are textually identical
up to the item type and message strings, so they are modelled once,
parameterized by the item's id projection and by the hook's messages.
Meta fields are `Option Int` because the code guards each arithmetic step
with `typeof ... === "number"`.  `Math.ceil` of the (float) quotient is
modelled by exact integer ceiling division; a zero `limit`, which in JS
would produce `Infinity`/`NaN`, is outside this model and mapped to 0. -/

/-- Integer ceiling division `⌈a / b⌉` (exact for every `b ≠ 0`). -/
def ceilDivInt (a b : Int) : Int :=
  -((-a).ediv b)

/-- The `meta` block of a paginated response. -/
structure ListMeta where
  page : Option Int
  limit : Option Int
  totalItems : Option Int
  totalPages : Option Int
deriving Repr, DecidableEq

/-- A paginated list response (`ProjectsResponse` / `WorklogsResponse`):
`data` and `meta` are optional because the code defends with
`prev.data || []` and `prev.meta ? ... : prev.meta`. -/
structure ListResponse (α : Type) where
  success : Option Bool
  message : Option String
  data : Option (List α)
  meta : Option ListMeta
deriving Repr, DecidableEq

/-- The meta adjustment of the optimistic delete: decrement `totalItems`
(clamped at 0) when it is a number, recompute `totalPages` (clamped at 1)
when `totalItems` and `limit` are numbers, keep the rest. -/
def removeMetaUpdate (m : ListMeta) : ListMeta :=
  { m with
    totalItems :=
      match m.totalItems with
      | some t => some (max 0 (t - 1))
      | none => m.totalItems
    totalPages :=
      match m.totalItems, m.limit with
      | some t, some l => some (max 1 (ceilDivInt (max 0 (t - 1)) l))
      | _, _ => m.totalPages }

/-- The `setData` updater run after a successful delete: drop every item
with the deleted id from the current page and adjust the meta block. -/
def removeUpdate {α : Type} (idOf : α → String) (x : String)
    (prev : Option (ListResponse α)) : Option (ListResponse α) :=
  match prev with
  | none => none
  | some p =>
      some { p with
        data := some ((p.data.getD []).filter (fun it => idOf it ≠ x))
        meta :=
          match p.meta with
          | some m => some (removeMetaUpdate m)
          | none => p.meta }

/-- The messages of one hook's `remove`; `failMsg` takes the response
status. -/
structure RemoveMsgs where
  failMsg : Nat → String
  okMsg : String
  catchMsg : String

/-- Messages of `useProjects.remove`. -/
def projectsRemoveMsgs : RemoveMsgs :=
  { failMsg := fun status => "Gagal menghapus project (" ++ toString status ++ ")."
    okMsg := "Berhasil menghapus project"
    catchMsg := "Gagal menghapus project. Coba lagi." }

/-- Messages of `useWorklogs.remove`. -/
def worklogsRemoveMsgs : RemoveMsgs :=
  { failMsg := fun status => "Gagal menghapus worklog (" ++ toString status ++ ")."
    okMsg := "Berhasil menghapus worklog"
    catchMsg := "Gagal menghapus worklog. Coba lagi." }

/-- The session-invalid message shared by the hooks. -/
def sessionInvalidMsg : String := "Sesi tidak valid. Silakan login kembali."

/-- The body of a DELETE response, when it was JSON. -/
structure DeleteBody where
  success : Option Bool
  message : Option String
deriving Repr, DecidableEq

/-- How the DELETE fetch ends: the promise rejects, or a response arrives
with `res.ok`, `res.status` and an optional JSON body. -/
inductive DeleteOutcome where
  | throws : DeleteOutcome
  | resp (ok : Bool) (status : Nat) (body : Option DeleteBody) : DeleteOutcome
deriving Repr, DecidableEq

/-- The `{ ok, message }` record `remove` resolves with. -/
structure RemoveResult where
  ok : Bool
  message : String
deriving Repr, DecidableEq

/-- The function `remove(id)` from `use-projects.ts` / `use-worklogs.ts`,
acting on the
pair (held list data, error message) and returning its result record plus
the new pair.  `apiHost` and `token` are the `API_HOST` constant and the
`access_token` cookie. -/
def removeStep {α : Type} (msgs : RemoveMsgs) (idOf : α → String)
    (apiHost token : Option String) (outcome : DeleteOutcome) (x : String)
    (st : Option (ListResponse α) × String) :
    RemoveResult × (Option (ListResponse α) × String) :=
  if jsStrFalsy apiHost || jsStrFalsy token then
    (⟨false, sessionInvalidMsg⟩, (st.1, sessionInvalidMsg))
  else
    match outcome with
    | DeleteOutcome.throws => (⟨false, msgs.catchMsg⟩, st)
    | DeleteOutcome.resp ok status body =>
        if !ok || (match body with
                   | some b => b.success = some false
                   | none => false) then
          (⟨false, jsOrStr (body.bind (fun b => b.message)) (msgs.failMsg status)⟩,
            st)
        else
          (⟨true, jsOrStr (body.bind (fun b => b.message)) msgs.okMsg⟩,
            (removeUpdate idOf x st.1, st.2))

/-- Wrapper for `useWorklogs.remove`, which first bails out when the hook
has no project id. -/
def worklogsRemoveStep {α : Type} (idOf : α → String)
    (projectId apiHost token : Option String) (outcome : DeleteOutcome)
    (x : String) (st : Option (ListResponse α) × String) :
    RemoveResult × (Option (ListResponse α) × String) :=
  if jsStrFalsy projectId then
    (⟨false, "ID project tidak valid."⟩, st)
  else
    removeStep worklogsRemoveMsgs idOf apiHost token outcome x st

/-- C5: after a successful delete of id `x` the held page is updated in
place: items with id `x` are dropped and no other item is lost, `totalItems`
becomes `max 0 (totalItems - 1)` when it was a number, `totalPages` becomes
`max 1 ⌈max 0 (totalItems - 1) / limit⌉` when `totalItems` and `limit` are
numbers, every other field is unchanged, a missing held response stays
`null`, and the success branch of `remove` performs exactly this local
update (no refetch). -/
theorem C5_optimistic_delete {α : Type} (idOf : α → String) (x : String)
    (p : ListResponse α) (msgs : RemoveMsgs) (apiHost token : Option String)
    (status : Nat) (body : Option DeleteBody)
    (st : Option (ListResponse α) × String) :
    removeUpdate idOf x none = none ∧
    (∃ q, removeUpdate idOf x (some p) = some q ∧
      q.data = some ((p.data.getD []).filter (fun it => idOf it ≠ x)) ∧
      (∀ it ∈ p.data.getD [], idOf it ≠ x → it ∈ q.data.getD []) ∧
      (∀ it ∈ q.data.getD [], idOf it ≠ x) ∧
      q.success = p.success ∧ q.message = p.message ∧
      (p.meta = none → q.meta = none) ∧
      (∀ m, p.meta = some m → ∃ m2, q.meta = some m2 ∧
        m2.page = m.page ∧ m2.limit = m.limit ∧
        (∀ t, m.totalItems = some t → m2.totalItems = some (max 0 (t - 1))) ∧
        (m.totalItems = none → m2.totalItems = none) ∧
        (∀ t l, m.totalItems = some t → m.limit = some l →
          m2.totalPages = some (max 1 (ceilDivInt (max 0 (t - 1)) l))) ∧
        ((m.totalItems = none ∨ m.limit = none) → m2.totalPages = m.totalPages))) ∧
    (jsStrFalsy apiHost = false → jsStrFalsy token = false →
      (match body with
       | some b => b.success = some false
       | none => false : Bool) = false →
      (removeStep msgs idOf apiHost token (DeleteOutcome.resp true status body)
          x st).2.1 = removeUpdate idOf x st.1 ∧
      (removeStep msgs idOf apiHost token (DeleteOutcome.resp true status body)
          x st).1.ok = true) := by
  refine ⟨rfl, ?_, ?_⟩
  · refine ⟨_, rfl, rfl, ?_, ?_, rfl, rfl, ?_, ?_⟩
    · intro it hit hne
      simp only [Option.getD_some]
      exact List.mem_filter.mpr ⟨hit, by simpa using hne⟩
    · intro it hit
      simp only [Option.getD_some] at hit
      have := List.of_mem_filter hit
      simpa using this
    · intro hm
      simp [hm]
    · intro m hm
      rw [hm]
      refine ⟨removeMetaUpdate m, rfl, rfl, rfl, ?_, ?_, ?_, ?_⟩
      · intro t ht
        simp [removeMetaUpdate, ht]
      · intro ht
        simp [removeMetaUpdate, ht]
      · intro t l ht hl
        simp [removeMetaUpdate, ht, hl]
      · rintro (ht | hl)
        · simp [removeMetaUpdate, ht]
        · cases ht : m.totalItems <;> simp [removeMetaUpdate, ht, hl]
  · intro h1 h2 h3
    simp [removeStep, h1, h2, h3]

/-- Concrete instance of C5: deleting `"a"` from a held page of two items
with `totalItems = 11`, `limit = 10` leaves `["b"]`, `totalItems = 10`,
`totalPages = 1`, applied through the success branch of `remove`. -/
theorem C5_optimistic_delete_witness :
    (removeStep projectsRemoveMsgs (fun s => s) (some "h") (some "t")
        (DeleteOutcome.resp true 200 none) "a"
        (some ⟨some true, none, some ["a", "b"],
          some ⟨some 1, some 10, some 11, some 2⟩⟩, "")).2.1 =
      some ⟨some true, none, some ["b"], some ⟨some 1, some 10, some 10, some 1⟩⟩ ∧
    (removeStep projectsRemoveMsgs (fun s => s) (some "h") (some "t")
        (DeleteOutcome.resp true 200 none) "a"
        (some ⟨some true, none, some ["a", "b"],
          some ⟨some 1, some 10, some 11, some 2⟩⟩, "")).1.ok = true := by
  have h := (C5_optimistic_delete (fun s : String => s) "a"
      ⟨some true, none, some ["a", "b"], some ⟨some 1, some 10, some 11, some 2⟩⟩
      projectsRemoveMsgs (some "h") (some "t") 200 none
      (some ⟨some true, none, some ["a", "b"],
        some ⟨some 1, some 10, some 11, some 2⟩⟩, "")).2.2
      (by decide) (by decide) (by decide)
  exact ⟨h.1.trans (by decide), h.2⟩

/-- C8: `remove` is atomic on failure — whenever it resolves with
`ok = false` (invalid session, non-2xx status, `success === false` body, or
a thrown fetch) the held list data is exactly what it was before the call,
and contrapositively only a successful delete ever mutates the held list;
the worklogs variant behaves the same, including its missing-project-id
bail-out. -/
theorem C8_delete_failure_atomic {α : Type} (msgs : RemoveMsgs)
    (idOf : α → String) (projectId apiHost token : Option String)
    (outcome : DeleteOutcome) (x : String)
    (st : Option (ListResponse α) × String) :
    ((removeStep msgs idOf apiHost token outcome x st).1.ok = false →
      (removeStep msgs idOf apiHost token outcome x st).2.1 = st.1) ∧
    ((removeStep msgs idOf apiHost token outcome x st).2.1 ≠ st.1 →
      (removeStep msgs idOf apiHost token outcome x st).1.ok = true) ∧
    ((worklogsRemoveStep idOf projectId apiHost token outcome x st).1.ok = false →
      (worklogsRemoveStep idOf projectId apiHost token outcome x st).2.1 = st.1) := by
  have hcore : ∀ m : RemoveMsgs,
      ((removeStep m idOf apiHost token outcome x st).1.ok = false →
        (removeStep m idOf apiHost token outcome x st).2.1 = st.1) ∧
      ((removeStep m idOf apiHost token outcome x st).2.1 ≠ st.1 →
        (removeStep m idOf apiHost token outcome x st).1.ok = true) := by
    intro m
    by_cases hs : (jsStrFalsy apiHost || jsStrFalsy token) = true
    · constructor <;> simp [removeStep, hs]
    · cases outcome with
      | throws => constructor <;> simp [removeStep, hs]
      | resp ok status body =>
          by_cases hc : (!ok || (match body with
              | some b => b.success = some false
              | none => false : Bool)) = true
          · constructor <;> simp [removeStep, hs, hc]
          · constructor <;> simp [removeStep, hs, hc]
  refine ⟨(hcore msgs).1, (hcore msgs).2, ?_⟩
  by_cases hp : jsStrFalsy projectId = true
  · simp [worklogsRemoveStep, hp]
  · intro h
    rw [worklogsRemoveStep, if_neg (by simpa using hp)] at h ⊢
    exact (hcore worklogsRemoveMsgs).1 h

/-- Concrete instance of C8: with no API host configured, `remove` fails
and the held page is untouched. -/
theorem C8_delete_failure_atomic_witness :
    (removeStep projectsRemoveMsgs (fun s : String => s) none (some "t")
        DeleteOutcome.throws "a"
        (some ⟨some true, none, some ["a"], none⟩, "")).2.1 =
      some ⟨some true, none, some ["a"], none⟩ :=
  (C8_delete_failure_atomic projectsRemoveMsgs (fun s : String => s)
      (some "p") none (some "t") DeleteOutcome.throws "a"
      (some ⟨some true, none, some ["a"], none⟩, "")).1 (by decide)

/-! ## Bearer-token requests (`fetchWithAuth`, the load/remove guards)

Every fetch the hooks issue sets
`headers: { Authorization: "Bearer " + token }`, with the token read from
the `access_token` cookie; `load` and `remove` bail out before any fetch
when `!API_HOST || !token`, setting the session-invalid error. -/

/-- The slice of a fetch request the hooks determine. -/
structure HttpRequest where
  url : String
  method : String
  authorization : Option String
deriving Repr, DecidableEq

/-- The header value `"Bearer " + token`. -/
def bearer (token : String) : String := "Bearer " ++ token

/-- The GET request built by `fetchWithAuth`. -/
def fetchWithAuthRequest (url token : String) : HttpRequest :=
  { url := url, method := "GET", authorization := some (bearer token) }

/-- The DELETE request built by `remove`
(`endpoint + "/" + encodeURIComponent(id)`). -/
def removeRequest (endpoint x token : String) : HttpRequest :=
  { url := endpoint ++ "/" ++ encodeURIComponent x
    method := "DELETE"
    authorization := some (bearer token) }

/-- The guard at the head of `load()`: with a falsy `API_HOST` or token no
request is issued and the session-invalid error is set; otherwise the
`fetchWithAuth` GET goes out. -/
def loadIssue (apiHost token : Option String) (url : String) :
    Option HttpRequest × Option String :=
  if jsStrFalsy apiHost || jsStrFalsy token then
    (none, some sessionInvalidMsg)
  else
    (some (fetchWithAuthRequest url (token.getD "")), none)

/-- C6: every request a hook sends carries
`Authorization: "Bearer " + token` with the token from the `access_token`
cookie, and with the cookie absent (or `API_HOST` unset) no request is
issued at all: `load` sets the session-invalid error without fetching, and
`remove` fails with that message and its result does not depend on any
network outcome. -/
theorem C6_bearer_auth {α : Type} (url t endpoint x : String)
    (msgs : RemoveMsgs) (idOf : α → String) (apiHost token : Option String)
    (st : Option (ListResponse α) × String) :
    (fetchWithAuthRequest url t).authorization = some (bearer t) ∧
    (removeRequest endpoint x t).authorization = some (bearer t) ∧
    (∀ r, (loadIssue apiHost token url).1 = some r →
      r.authorization = some (bearer (token.getD ""))) ∧
    (token = none ∨ jsStrFalsy apiHost = true →
      (loadIssue apiHost token url = (none, some sessionInvalidMsg)) ∧
      (∀ o₁ o₂ : DeleteOutcome,
        removeStep msgs idOf apiHost token o₁ x st =
          removeStep msgs idOf apiHost token o₂ x st) ∧
      (removeStep msgs idOf apiHost token DeleteOutcome.throws x st).1 =
        ⟨false, sessionInvalidMsg⟩ ∧
      (removeStep msgs idOf apiHost token DeleteOutcome.throws x st).2.2 =
        sessionInvalidMsg) := by
  have hfals : token = none ∨ jsStrFalsy apiHost = true →
      (jsStrFalsy apiHost || jsStrFalsy token) = true := by
    rintro (rfl | h)
    · simp [jsStrFalsy]
    · simp [h]
  refine ⟨rfl, rfl, ?_, ?_⟩
  · intro r hr
    by_cases hg : (jsStrFalsy apiHost || jsStrFalsy token) = true
    · rw [loadIssue, if_pos hg] at hr
      exact absurd hr (by simp)
    · rw [loadIssue, if_neg hg] at hr
      simpa [fetchWithAuthRequest] using congrArg HttpRequest.authorization
        (Option.some_injective _ hr).symm
  · intro h
    have hg := hfals h
    refine ⟨?_, ?_, ?_, ?_⟩
    · rw [loadIssue, if_pos hg]
    · intro o₁ o₂
      rw [removeStep.eq_def, removeStep.eq_def, if_pos hg, if_pos hg]
    · rw [removeStep.eq_def, if_pos hg]
    · rw [removeStep.eq_def, if_pos hg]

/-- Concrete instance of C6: with no `access_token` cookie, `load` issues
no request and reports the invalid session. -/
theorem C6_bearer_auth_witness :
    loadIssue (some "https://api") none "https://api/projects" =
      (none, some sessionInvalidMsg) :=
  ((C6_bearer_auth "https://api/projects" "tok" "e" "x" projectsRemoveMsgs
      (fun s : String => s) (some "https://api") none
      ((none : Option (ListResponse String)), "")).2.2.2
    (Or.inl rfl)).1

/-! ## Archived-status gating of mutation UI

`ProjectDetail.tsx` computes `isArchived = project.status === ARCHIVED`,
disables the Add Worklog button with it and renders Edit / Archive only for
`!isArchived && canManage` (`canManage` is the admin-role check of
`useProjectDetail`).  `WorklogsList.tsx` and its empty state disable their
Add Worklog buttons when the project is archived, and `WorklogDetail.tsx`
renders Edit / Delete only when it is not. -/

/-- Mutation-relevant controls of the project detail page. -/
structure ProjectDetailUi where
  addWorklogDisabled : Bool
  editRendered : Bool
  archiveRendered : Bool
deriving Repr, DecidableEq

/-- The `ProjectDetail` action area as a function of the project status and
`canManage`. -/
def projectDetailUi (status : String) (canManage : Bool) : ProjectDetailUi :=
  let isArchived := status = "ARCHIVED"
  { addWorklogDisabled := isArchived
    editRendered := !isArchived && canManage
    archiveRendered := !isArchived && canManage }

/-- Mutation-relevant controls of the worklogs list page (header button
and empty-state button). -/
structure WorklogsListUi where
  addWorklogDisabled : Bool
  emptyAddWorklogDisabled : Bool
deriving Repr, DecidableEq

/-- The `WorklogsList` buttons as a function of the (possibly still unloaded)
project: `archived = pd.project?.status === ProjectStatus.ARCHIVED`. -/
def worklogsListUi (project : Option ProjectItem) : WorklogsListUi :=
  let archived := project.map ProjectItem.status = some "ARCHIVED"
  { addWorklogDisabled := archived
    emptyAddWorklogDisabled := archived }

/-- Mutation-relevant controls of the worklog detail page. -/
structure WorklogDetailUi where
  editRendered : Bool
  deleteRendered : Bool
deriving Repr, DecidableEq

/-- The `WorklogDetail` action area as a function of the project. -/
def worklogDetailUi (project : Option ProjectItem) : WorklogDetailUi :=
  let archived := project.map ProjectItem.status = some "ARCHIVED"
  { editRendered := !archived, deleteRendered := !archived }

/-- C7: for an `ARCHIVED` project the Add Worklog actions are disabled and
Edit / Archive / Delete are not rendered; for an `ACTIVE` project they are
available, with the project page's Edit and Archive additionally requiring
the admin role. -/
theorem C7_archived_gating (p : ProjectItem) (canManage : Bool) :
    (p.status = "ARCHIVED" →
      projectDetailUi p.status canManage = ⟨true, false, false⟩ ∧
      worklogsListUi (some p) = ⟨true, true⟩ ∧
      worklogDetailUi (some p) = ⟨false, false⟩) ∧
    (p.status = "ACTIVE" →
      projectDetailUi p.status canManage = ⟨false, canManage, canManage⟩ ∧
      worklogsListUi (some p) = ⟨false, false⟩ ∧
      worklogDetailUi (some p) = ⟨true, true⟩) := by
  constructor
  · intro h
    refine ⟨?_, ?_, ?_⟩ <;>
      simp [projectDetailUi, worklogsListUi, worklogDetailUi, h]
  · intro h
    refine ⟨?_, ?_, ?_⟩ <;>
      simp [projectDetailUi, worklogsListUi, worklogDetailUi, h]

/-- Concrete instance of C7 for an archived project. -/
theorem C7_archived_gating_witness :
    projectDetailUi "ARCHIVED" true = ⟨true, false, false⟩ ∧
    worklogDetailUi (some ⟨"p1", "t", "d", "ts", "ARCHIVED", "c"⟩) =
      ⟨false, false⟩ :=
  ⟨((C7_archived_gating ⟨"p1", "t", "d", "ts", "ARCHIVED", "c"⟩ true).1
      (by decide)).1,
   ((C7_archived_gating ⟨"p1", "t", "d", "ts", "ARCHIVED", "c"⟩ true).1
      (by decide)).2.2⟩

/-! ## Canonical query strings (`useProjects.load`, `useWorklogs.load`)

The list hooks fill a `URLSearchParams` only with non-default values and
append `"?" + params` to the endpoint only when the serialization is
non-empty.  `URLSearchParams` is modelled as the ordered list of set
key/value pairs (the keys here are distinct), serialized with
`application/x-www-form-urlencoded` encoding. -/

/-- Characters the form encoding leaves unescaped. -/
def formUnreserved (c : Char) : Bool :=
  c.isAlphanum || c = '*' || c = '-' || c = '.' || c = '_'

/-- The `application/x-www-form-urlencoded` encoding of one string
(`URLSearchParams.toString`): space becomes `+`, other reserved characters
are percent-encoded. -/
def formEncode (s : String) : String :=
  String.join (s.data.map (fun c =>
    if c = ' ' then "+"
    else if formUnreserved c then String.singleton c
    else String.join ((utf8Bytes c).map percentByte)))

/-- Serialization of a `URLSearchParams` pair list. -/
def paramsToString (ps : List (String × String)) : String :=
  String.intercalate "&" (ps.map (fun kv => formEncode kv.1 ++ "=" ++ formEncode kv.2))

/-- The url `endpoint + (params.toString().length ? "?" + params : "")`. -/
def urlWithParams (endpoint : String) (ps : List (String × String)) : String :=
  if (paramsToString ps).length ≠ 0 then
    endpoint ++ "?" ++ paramsToString ps
  else endpoint

/-- The query state of `useProjects` (`ProjectsQuery`); `status` ranges
over `"ALL" | "ACTIVE" | "ARCHIVED"`. -/
structure ProjectsQuery where
  search : Option String
  status : Option String
  page : Option Int
  limit : Option Int
deriving Repr, DecidableEq

/-- JS truthiness of an optional number (`0`, `null`, `undefined` falsy). -/
def jsNumTruthy : Option Int → Bool
  | none => false
  | some v => v ≠ 0

/-- The parameters `useProjects.load` sets, in order. -/
def projectsQueryParams (q : ProjectsQuery) : List (String × String) :=
  (if !jsStrFalsy q.search ∧ ((jsTrim (q.search.getD "")).length > 0) then
    [("search", jsTrim (q.search.getD ""))] else []) ++
  (if !jsStrFalsy q.status ∧ q.status ≠ some "ALL" then
    [("status", q.status.getD "")] else []) ++
  (if jsNumTruthy q.page ∧ q.page.getD 0 > 1 then
    [("page", toString (q.page.getD 0))] else []) ++
  (if jsNumTruthy q.limit ∧ q.limit.getD 0 ≠ 10 then
    [("limit", toString (q.limit.getD 0))] else [])

/-- The URL `useProjects.load` fetches. -/
def projectsUrl (endpoint : String) (q : ProjectsQuery) : String :=
  urlWithParams endpoint (projectsQueryParams q)

/-- The query state of `useWorklogs` (`WorklogsQuery`). -/
structure WorklogsQuery where
  fromDate : Option String
  toDate : Option String
  activityType : Option String
  page : Option Int
  limit : Option Int
deriving Repr, DecidableEq

/-- The parameters `useWorklogs.load` sets, in order. -/
def worklogsQueryParams (q : WorklogsQuery) : List (String × String) :=
  (if !jsStrFalsy q.fromDate then [("fromDate", q.fromDate.getD "")] else []) ++
  (if !jsStrFalsy q.toDate then [("toDate", q.toDate.getD "")] else []) ++
  (if !jsStrFalsy q.activityType ∧ ((jsTrim (q.activityType.getD "")).length > 0) then
    [("activityType", jsTrim (q.activityType.getD ""))] else []) ++
  (if jsNumTruthy q.page ∧ q.page.getD 0 > 1 then
    [("page", toString (q.page.getD 0))] else []) ++
  (if jsNumTruthy q.limit ∧ q.limit.getD 0 ≠ 10 then
    [("limit", toString (q.limit.getD 0))] else [])

/-- The URL `useWorklogs.load` fetches. -/
def worklogsUrl (endpoint : String) (q : WorklogsQuery) : String :=
  urlWithParams endpoint (worklogsQueryParams q)

/-- Model of `URLSearchParams.get`: the first value set under a key. -/
def paramsGet (k : String) : List (String × String) → Option String
  | [] => none
  | (k₁, v) :: rest => if k₁ = k then some v else paramsGet k rest

theorem paramsGet_block_ne (k k₁ v₁ : String) (c : Prop) [Decidable c]
    (rest : List (String × String)) (hne : k₁ ≠ k) :
    paramsGet k ((if c then [(k₁, v₁)] else []) ++ rest) = paramsGet k rest := by
  by_cases hc : c <;> simp [hc, paramsGet, hne]

theorem paramsGet_block_eq (k v₁ : String) (c : Prop) [Decidable c]
    (rest : List (String × String)) :
    paramsGet k ((if c then [(k, v₁)] else []) ++ rest) =
      if c then some v₁ else paramsGet k rest := by
  by_cases hc : c <;> simp [hc, paramsGet]

theorem paramsGet_last_ne (k k₁ v₁ : String) (c : Prop) [Decidable c]
    (hne : k₁ ≠ k) :
    paramsGet k (if c then [(k₁, v₁)] else []) = none := by
  by_cases hc : c <;> simp [hc, paramsGet, hne]

theorem paramsGet_last_eq (k v₁ : String) (c : Prop) [Decidable c] :
    paramsGet k (if c then [(k, v₁)] else []) =
      if c then some v₁ else none := by
  by_cases hc : c <;> simp [hc, paramsGet]

theorem projects_paramsGet_search (q : ProjectsQuery) :
    paramsGet "search" (projectsQueryParams q) =
      if ((!jsStrFalsy q.search) = true ∧ (jsTrim (q.search.getD "")).length > 0)
      then some (jsTrim (q.search.getD "")) else none := by
  unfold projectsQueryParams
  simp only [List.append_assoc]
  rw [paramsGet_block_eq,
    paramsGet_block_ne _ _ _ _ _ (by decide),
    paramsGet_block_ne _ _ _ _ _ (by decide),
    paramsGet_last_ne _ _ _ _ (by decide)]

theorem projects_paramsGet_status (q : ProjectsQuery) :
    paramsGet "status" (projectsQueryParams q) =
      if ((!jsStrFalsy q.status) = true ∧ q.status ≠ some "ALL")
      then some (q.status.getD "") else none := by
  unfold projectsQueryParams
  simp only [List.append_assoc]
  rw [paramsGet_block_ne _ _ _ _ _ (by decide),
    paramsGet_block_eq,
    paramsGet_block_ne _ _ _ _ _ (by decide),
    paramsGet_last_ne _ _ _ _ (by decide)]

theorem projects_paramsGet_page (q : ProjectsQuery) :
    paramsGet "page" (projectsQueryParams q) =
      if (jsNumTruthy q.page = true ∧ q.page.getD 0 > 1)
      then some (toString (q.page.getD 0)) else none := by
  unfold projectsQueryParams
  simp only [List.append_assoc]
  rw [paramsGet_block_ne _ _ _ _ _ (by decide),
    paramsGet_block_ne _ _ _ _ _ (by decide),
    paramsGet_block_eq,
    paramsGet_last_ne _ _ _ _ (by decide)]

theorem projects_paramsGet_limit (q : ProjectsQuery) :
    paramsGet "limit" (projectsQueryParams q) =
      if (jsNumTruthy q.limit = true ∧ q.limit.getD 0 ≠ 10)
      then some (toString (q.limit.getD 0)) else none := by
  unfold projectsQueryParams
  simp only [List.append_assoc]
  rw [paramsGet_block_ne _ _ _ _ _ (by decide),
    paramsGet_block_ne _ _ _ _ _ (by decide),
    paramsGet_block_ne _ _ _ _ _ (by decide),
    paramsGet_last_eq]

theorem worklogs_paramsGet_fromDate (q : WorklogsQuery) :
    paramsGet "fromDate" (worklogsQueryParams q) =
      if ((!jsStrFalsy q.fromDate) = true)
      then some (q.fromDate.getD "") else none := by
  unfold worklogsQueryParams
  simp only [List.append_assoc]
  rw [paramsGet_block_eq,
    paramsGet_block_ne _ _ _ _ _ (by decide),
    paramsGet_block_ne _ _ _ _ _ (by decide),
    paramsGet_block_ne _ _ _ _ _ (by decide),
    paramsGet_last_ne _ _ _ _ (by decide)]

theorem worklogs_paramsGet_toDate (q : WorklogsQuery) :
    paramsGet "toDate" (worklogsQueryParams q) =
      if ((!jsStrFalsy q.toDate) = true)
      then some (q.toDate.getD "") else none := by
  unfold worklogsQueryParams
  simp only [List.append_assoc]
  rw [paramsGet_block_ne _ _ _ _ _ (by decide),
    paramsGet_block_eq,
    paramsGet_block_ne _ _ _ _ _ (by decide),
    paramsGet_block_ne _ _ _ _ _ (by decide),
    paramsGet_last_ne _ _ _ _ (by decide)]

theorem worklogs_paramsGet_activity (q : WorklogsQuery) :
    paramsGet "activityType" (worklogsQueryParams q) =
      if ((!jsStrFalsy q.activityType) = true ∧
          (jsTrim (q.activityType.getD "")).length > 0)
      then some (jsTrim (q.activityType.getD "")) else none := by
  unfold worklogsQueryParams
  simp only [List.append_assoc]
  rw [paramsGet_block_ne _ _ _ _ _ (by decide),
    paramsGet_block_ne _ _ _ _ _ (by decide),
    paramsGet_block_eq,
    paramsGet_block_ne _ _ _ _ _ (by decide),
    paramsGet_last_ne _ _ _ _ (by decide)]

theorem worklogs_paramsGet_page (q : WorklogsQuery) :
    paramsGet "page" (worklogsQueryParams q) =
      if (jsNumTruthy q.page = true ∧ q.page.getD 0 > 1)
      then some (toString (q.page.getD 0)) else none := by
  unfold worklogsQueryParams
  simp only [List.append_assoc]
  rw [paramsGet_block_ne _ _ _ _ _ (by decide),
    paramsGet_block_ne _ _ _ _ _ (by decide),
    paramsGet_block_ne _ _ _ _ _ (by decide),
    paramsGet_block_eq,
    paramsGet_last_ne _ _ _ _ (by decide)]

theorem worklogs_paramsGet_limit (q : WorklogsQuery) :
    paramsGet "limit" (worklogsQueryParams q) =
      if (jsNumTruthy q.limit = true ∧ q.limit.getD 0 ≠ 10)
      then some (toString (q.limit.getD 0)) else none := by
  unfold worklogsQueryParams
  simp only [List.append_assoc]
  rw [paramsGet_block_ne _ _ _ _ _ (by decide),
    paramsGet_block_ne _ _ _ _ _ (by decide),
    paramsGet_block_ne _ _ _ _ _ (by decide),
    paramsGet_block_ne _ _ _ _ _ (by decide),
    paramsGet_last_eq]

/-- C10: the list hooks omit default parameters — a `search` (or
`activityType`) value appears only when its trimmed text is non-empty and
then carries the trimmed text, `status` only when set and different from
`ALL`, `fromDate` / `toDate` only when set, `page` only when greater than
1, `limit` only when different from 10; in particular the default queries
yield the bare endpoint URL with no query string. -/
theorem C10_canonical_query (endpoint : String) (q : ProjectsQuery)
    (qw : WorklogsQuery) :
    (∀ v, paramsGet "search" (projectsQueryParams q) = some v →
      (jsTrim (q.search.getD "")).length > 0 ∧ v = jsTrim (q.search.getD "")) ∧
    (∀ v, paramsGet "status" (projectsQueryParams q) = some v →
      q.status = some v ∧ v ≠ "ALL" ∧ v ≠ "") ∧
    (∀ v, paramsGet "page" (projectsQueryParams q) = some v →
      ∃ p, q.page = some p ∧ 1 < p ∧ v = toString p) ∧
    (∀ v, paramsGet "limit" (projectsQueryParams q) = some v →
      ∃ l, q.limit = some l ∧ l ≠ 10 ∧ v = toString l) ∧
    (∀ v, paramsGet "fromDate" (worklogsQueryParams qw) = some v →
      qw.fromDate = some v ∧ v ≠ "") ∧
    (∀ v, paramsGet "toDate" (worklogsQueryParams qw) = some v →
      qw.toDate = some v ∧ v ≠ "") ∧
    (∀ v, paramsGet "activityType" (worklogsQueryParams qw) = some v →
      (jsTrim (qw.activityType.getD "")).length > 0 ∧
        v = jsTrim (qw.activityType.getD "")) ∧
    (∀ v, paramsGet "page" (worklogsQueryParams qw) = some v →
      ∃ p, qw.page = some p ∧ 1 < p ∧ v = toString p) ∧
    (∀ v, paramsGet "limit" (worklogsQueryParams qw) = some v →
      ∃ l, qw.limit = some l ∧ l ≠ 10 ∧ v = toString l) ∧
    projectsUrl endpoint ⟨none, some "ALL", some 1, some 10⟩ = endpoint ∧
    worklogsUrl endpoint ⟨none, none, none, some 1, some 10⟩ = endpoint := by
  refine ⟨?_, ?_, ?_, ?_, ?_, ?_, ?_, ?_, ?_, ?_, ?_⟩
  · intro v hv
    rw [projects_paramsGet_search] at hv
    by_cases hc : ((!jsStrFalsy q.search) = true ∧
        (jsTrim (q.search.getD "")).length > 0)
    · rw [if_pos hc] at hv
      exact ⟨hc.2, (Option.some_injective _ hv).symm⟩
    · rw [if_neg hc] at hv
      exact absurd hv (by simp)
  · intro v hv
    rw [projects_paramsGet_status] at hv
    by_cases hc : ((!jsStrFalsy q.status) = true ∧ q.status ≠ some "ALL")
    · rw [if_pos hc] at hv
      have hv2 := (Option.some_injective _ hv).symm
      rcases hq : q.status with _ | s
      · rw [hq] at hc
        exact absurd hc.1 (by simp [jsStrFalsy])
      · rw [hq] at hc hv2
        simp only [Option.getD_some] at hv2
        subst hv2
        have hs : v ≠ "" := by
          have := hc.1
          simpa [jsStrFalsy] using this
        have hall : v ≠ "ALL" := fun h => hc.2 (by rw [h])
        exact ⟨rfl, hall, hs⟩
    · rw [if_neg hc] at hv
      exact absurd hv (by simp)
  · intro v hv
    rw [projects_paramsGet_page] at hv
    by_cases hc : (jsNumTruthy q.page = true ∧ q.page.getD 0 > 1)
    · rw [if_pos hc] at hv
      rcases hq : q.page with _ | p
      · rw [hq] at hc
        exact absurd hc.1 (by simp [jsNumTruthy])
      · rw [hq] at hc hv
        simp only [Option.getD_some] at hc hv
        exact ⟨p, rfl, hc.2, (Option.some_injective _ hv).symm⟩
    · rw [if_neg hc] at hv
      exact absurd hv (by simp)
  · intro v hv
    rw [projects_paramsGet_limit] at hv
    by_cases hc : (jsNumTruthy q.limit = true ∧ q.limit.getD 0 ≠ 10)
    · rw [if_pos hc] at hv
      rcases hq : q.limit with _ | l
      · rw [hq] at hc
        exact absurd hc.1 (by simp [jsNumTruthy])
      · rw [hq] at hc hv
        simp only [Option.getD_some] at hc hv
        exact ⟨l, rfl, hc.2, (Option.some_injective _ hv).symm⟩
    · rw [if_neg hc] at hv
      exact absurd hv (by simp)
  · intro v hv
    rw [worklogs_paramsGet_fromDate] at hv
    by_cases hc : ((!jsStrFalsy qw.fromDate) = true)
    · rw [if_pos hc] at hv
      have hv2 := (Option.some_injective _ hv).symm
      rcases hq : qw.fromDate with _ | s
      · rw [hq] at hc
        exact absurd hc (by simp [jsStrFalsy])
      · rw [hq] at hc hv2
        simp only [Option.getD_some] at hv2
        subst hv2
        exact ⟨rfl, by simpa [jsStrFalsy] using hc⟩
    · rw [if_neg hc] at hv
      exact absurd hv (by simp)
  · intro v hv
    rw [worklogs_paramsGet_toDate] at hv
    by_cases hc : ((!jsStrFalsy qw.toDate) = true)
    · rw [if_pos hc] at hv
      have hv2 := (Option.some_injective _ hv).symm
      rcases hq : qw.toDate with _ | s
      · rw [hq] at hc
        exact absurd hc (by simp [jsStrFalsy])
      · rw [hq] at hc hv2
        simp only [Option.getD_some] at hv2
        subst hv2
        exact ⟨rfl, by simpa [jsStrFalsy] using hc⟩
    · rw [if_neg hc] at hv
      exact absurd hv (by simp)
  · intro v hv
    rw [worklogs_paramsGet_activity] at hv
    by_cases hc : ((!jsStrFalsy qw.activityType) = true ∧
        (jsTrim (qw.activityType.getD "")).length > 0)
    · rw [if_pos hc] at hv
      exact ⟨hc.2, (Option.some_injective _ hv).symm⟩
    · rw [if_neg hc] at hv
      exact absurd hv (by simp)
  · intro v hv
    rw [worklogs_paramsGet_page] at hv
    by_cases hc : (jsNumTruthy qw.page = true ∧ qw.page.getD 0 > 1)
    · rw [if_pos hc] at hv
      rcases hq : qw.page with _ | p
      · rw [hq] at hc
        exact absurd hc.1 (by simp [jsNumTruthy])
      · rw [hq] at hc hv
        simp only [Option.getD_some] at hc hv
        exact ⟨p, rfl, hc.2, (Option.some_injective _ hv).symm⟩
    · rw [if_neg hc] at hv
      exact absurd hv (by simp)
  · intro v hv
    rw [worklogs_paramsGet_limit] at hv
    by_cases hc : (jsNumTruthy qw.limit = true ∧ qw.limit.getD 0 ≠ 10)
    · rw [if_pos hc] at hv
      rcases hq : qw.limit with _ | l
      · rw [hq] at hc
        exact absurd hc.1 (by simp [jsNumTruthy])
      · rw [hq] at hc hv
        simp only [Option.getD_some] at hc hv
        exact ⟨l, rfl, hc.2, (Option.some_injective _ hv).symm⟩
    · rw [if_neg hc] at hv
      exact absurd hv (by simp)
  · rfl
  · rfl

/-- Concrete instance of C10: a page-2 query with a padded search term
serializes to exactly the trimmed search and the page number. -/
theorem C10_canonical_query_witness :
    paramsGet "search" (projectsQueryParams ⟨some " api ", some "ALL", some 2, some 10⟩) =
      some "api" ∧
    (projectsQueryParams ⟨some " api ", some "ALL", some 2, some 10⟩ =
      [("search", "api"), ("page", "2")]) ∧
    (jsTrim " api ").length > 0 := by
  refine ⟨?_, by decide, ?_⟩
  · rw [projects_paramsGet_search]
    decide
  · exact ((C10_canonical_query "e"
        ⟨some " api ", some "ALL", some 2, some 10⟩
        ⟨none, none, none, none, none⟩).1 "api" (by decide)).1

end Devlog
